import Mathlib

/-!
# The `legofy` video filter (`vf_legofy.c`)

A shallow embedding of the filter's four functions (`load_brick_texture`,
`filter_frame`, `legofy_activate`, `config_input`) and the properties of the
block averaging and texture blending they implement.

Conventions of the embedding:

* a `uint8_t` is a `Fin 256`;
* a plane of a frame is a map from byte offset to byte, so that two pixel
  coordinates with the same offset `row * linesize + col` are the same cell of
  memory, exactly as in C;
* the C `int`s of the loops over the frame (coordinates, counters, offsets
  into plane 0, the sum of a cell) are natural numbers: they are non-negative
  on every path;
* the `int` arithmetic of the texture lookup (lines 151-157) is 32-bit: every
  product and sum is reduced by `wrap32` to the two's-complement range, `/` is
  the truncating division and `%` the remainder with the sign of the dividend,
  and a read at a negative index reads the memory in front of the plane;
* a C `for` loop is `forLoop`, which tests the loop condition of the source
  before every iteration; its fuel argument only makes the recursion
  structural: the loops below are given at least as much fuel as they have
  iterations, and `forLoop_fuel` shows that the surplus is never used;
* `double` arithmetic is IEEE-754 binary64 with round-to-nearest-even, one
  rounding per operation.
-/

namespace Legofy

/-! ## Data model -/

/-- An 8-bit sample, `uint8_t` in the source. -/
abbrev Byte := Fin 256

/-- Conversion of an integer to `uint8_t` (reduction modulo 256). -/
def toByte (n : Nat) : Byte := ⟨n % 256, Nat.mod_lt n (by decide)⟩

/-- The fields of `AVFrame` that the filter reads or writes: `data p` is the
memory of plane `p` from its first byte on (offset to byte), `linesize p` its
stride, and `before p d` the byte `d` positions in front of the first byte of
plane `p`, which is what the index `-d` reads. -/
structure AVFrame where
  width : Nat
  height : Nat
  format : Nat
  linesize : Nat → Nat
  data : Nat → Nat → Byte
  before : Nat → Nat → Byte

/-- The byte `p[z]` for the base pointer `p` of plane `plane` and a signed
index `z`. -/
def AVFrame.read (f : AVFrame) (plane : Nat) (z : Int) : Byte :=
  if 0 ≤ z then f.data plane z.toNat else f.before plane (-z).toNat

/-- The private context of the filter; `brick_texture = none` is the null
pointer. -/
structure LegofyContext where
  brick_size : Nat
  brick_path : String
  brick_texture : Option AVFrame

/-- FFmpeg's `AVERROR(e)`: the negated errno value. -/
def AVERROR (e : Int) : Int := -e

/-- The errno value `EINVAL`. -/
def EINVAL : Int := 22

/-- The errno value `EAGAIN`. -/
def EAGAIN : Int := 11

/-- The errno value `ENOMEM`. -/
def ENOMEM : Int := 12

/-- FFmpeg's `AVERROR_EOF`, which is `-MKTAG('E','O','F',' ')`. -/
def AVERROR_EOF : Int := -541478725

/-- FFmpeg's `AVERROR_DECODER_NOT_FOUND`, which is `-MKTAG(0xF8,'D','E','C')`. -/
def AVERROR_DECODER_NOT_FOUND : Int := -1128613112

/-! ## Binary64 arithmetic of the blend expression

Every `double` that occurs in `(avg * 0.6) + (tex_pixel * 0.4)` is a
non-negative multiple of `2 ^ -54` below `256`, so it is represented by its
numerator over `2 ^ 54`. -/

/-- Number of bits by which `n` exceeds a 53-bit significand. -/
def excessBits : Nat → Nat → Nat
  | 0, _ => 0
  | fuel + 1, n => if n < 2 ^ 53 then 0 else excessBits fuel (n / 2) + 1

/-- Round-to-nearest, ties-to-even, of the numerator `n` to 53 significant
bits (the rounding of one binary64 operation; valid for `n < 2 ^ 117`). -/
def roundNE53 (n : Nat) : Nat :=
  let sh := excessBits 64 n
  let q := n / 2 ^ sh
  let r := n % 2 ^ sh
  if 2 * r < 2 ^ sh then q * 2 ^ sh
  else if 2 * r = 2 ^ sh ∧ q % 2 = 0 then q * 2 ^ sh
  else (q + 1) * 2 ^ sh

/-- The constant `0.6` as a binary64: `0x1.3333333333333p-1`, that is
`5404319552844595 / 2 ^ 53`, written over `2 ^ 54`. -/
def dbl_0_6 : Nat := 10808639105689190

/-- The constant `0.4` as a binary64: `0x1.999999999999ap-2`, that is
`7205759403792794 / 2 ^ 54`. -/
def dbl_0_4 : Nat := 7205759403792794

/-- The value of `(avg * 0.6) + (tex_pixel * 0.4)` as a `double`, numerator
over `2 ^ 54`: both operands are converted exactly, each product is rounded,
and the sum is rounded. -/
def blendDouble (avg tex_pixel : Byte) : Nat :=
  roundNE53 (roundNE53 (avg.val * dbl_0_6) + roundNE53 (tex_pixel.val * dbl_0_4))

/-- The byte stored by `data[...] = (avg * 0.6) + (tex_pixel * 0.4)`: the
conversion from `double` to `uint8_t` discards the fractional part. -/
def blend (avg tex_pixel : Byte) : Byte :=
  toByte (blendDouble avg tex_pixel / 2 ^ 54)

/-! ## Loops and memory -/

/-- A C loop `for (i = i0; cond i; i = next i) s = body i s`. -/
def forLoop {σ : Type} (cond : Nat → Bool) (next : Nat → Nat) (body : Nat → σ → σ) :
    Nat → Nat → σ → σ
  | 0, _, s => s
  | fuel + 1, i, s =>
    if cond i then forLoop cond next body fuel (next i) (body i s) else s

/-- Plane 0 of the frame being filtered, together with the offsets stored to
so far (most recent first). -/
structure Plane where
  bytes : Nat → Byte
  log : List Nat

/-- The assignment `data[o] = v`. -/
def Plane.store (s : Plane) (o : Nat) (v : Byte) : Plane :=
  ⟨fun k => if k = o then v else s.bytes k, o :: s.log⟩

/-- The averaging pass of one cell, lines 136-143: returns `(sum, count)`. -/
def averagingPass (data : Nat → Byte) (linesize width height brick_size x y : Nat) :
    Nat × Nat :=
  forLoop (fun j => decide (j < brick_size ∧ y + j < height)) (fun j => j + 1)
    (fun j acc =>
      forLoop (fun i => decide (i < brick_size ∧ x + i < width)) (fun i => i + 1)
        (fun i acc => (acc.1 + (data ((y + j) * linesize + (x + i))).val, acc.2 + 1))
        brick_size 0 acc)
    brick_size 0 (0, 0)

/-- The value of a 32-bit `int` expression whose exact result is `z`: the
two's-complement reduction to `[-2 ^ 31, 2 ^ 31)`, the identity on that range
and what the 32-bit multiply and add instructions produce outside it. -/
def wrap32 (z : Int) : Int := (z + 2147483648) % 4294967296 - 2147483648

/-- The scaled texture coordinate of line 151 (and 152): `(k * dim) / brick_size`
for the cell-local offset `k` and the texture dimension `dim`, with the 32-bit
product and the truncating division of C. -/
def texScale (brick_size dim k : Nat) : Int :=
  Int.tdiv (wrap32 ((k : Int) * (dim : Int))) (brick_size : Int)

/-- The texture coordinate after the wrap of line 154 (and 155); the C
remainder has the sign of the dividend. -/
def texCoord (brick_size dim k : Nat) : Int :=
  Int.tmod (texScale brick_size dim k) (dim : Int)

/-- The index `by * brick_linesize + bx` of line 157, a 32-bit `int`. -/
def texIndex (tex : AVFrame) (bx by_ : Int) : Int :=
  wrap32 (wrap32 (by_ * (tex.linesize 0 : Int)) + bx)

/-- The texture byte read for the cell-local offset `(i, j)`, lines 151-157. -/
def texPixel (tex : AVFrame) (brick_size i j : Nat) : Byte :=
  let bx := texCoord brick_size tex.width i
  let by_ := texCoord brick_size tex.height j
  tex.read 0 (texIndex tex bx by_)

/-- The blend pass of one cell, lines 147-161. -/
def blendPass (tex : AVFrame) (linesize width height brick_size x y : Nat) (avg : Byte)
    (s : Plane) : Plane :=
  forLoop (fun j => decide (j < brick_size ∧ y + j < height)) (fun j => j + 1)
    (fun j s =>
      forLoop (fun i => decide (i < brick_size ∧ x + i < width)) (fun i => i + 1)
        (fun i s =>
          s.store ((y + j) * linesize + (x + i)) (blend avg (texPixel tex brick_size i j)))
        brick_size 0 s)
    brick_size 0 s

/-- The body of the loop over `x`, lines 134-161: average, then blend. -/
def processCell (tex : AVFrame) (linesize width height brick_size x y : Nat) (s : Plane) :
    Plane :=
  let sc := averagingPass s.bytes linesize width height brick_size x y
  let avg := toByte (sc.1 / sc.2)
  blendPass tex linesize width height brick_size x y avg s

/-- The two outer loops of `filter_frame`, lines 130-163. -/
def legoLoops (tex : AVFrame) (linesize width height brick_size : Nat) (s : Plane) : Plane :=
  forLoop (fun y => decide (y < height)) (fun y => y + brick_size)
    (fun y s =>
      forLoop (fun x => decide (x < width)) (fun x => x + brick_size)
        (fun x s => processCell tex linesize width height brick_size x y s)
        width 0 s)
    height 0 s

/-- What a call of `filter_frame` leaves behind: its return value, the frame
and the context after the call, the frame handed to `ff_filter_frame` (if
any) and the plane-0 offsets it stored to. -/
structure FilterResult where
  ret : Int
  frame : AVFrame
  legofy : LegofyContext
  forwarded : Option AVFrame
  writes : List Nat

/-- The function `filter_frame`; `sink` is the return value of the downstream
`ff_filter_frame`. -/
def filter_frame (sink : AVFrame → Int) (legofy : LegofyContext) (frame : AVFrame) :
    FilterResult :=
  match legofy.brick_texture with
  | none => ⟨AVERROR EINVAL, frame, legofy, none, []⟩
  | some tex =>
    let s := legoLoops tex (frame.linesize 0) frame.width frame.height legofy.brick_size
      ⟨frame.data 0, []⟩
    let out : AVFrame :=
      ⟨frame.width, frame.height, frame.format, frame.linesize,
        fun p => if p = 0 then s.bytes else frame.data p, frame.before⟩
    ⟨sink out, out, legofy, some out, s.log⟩

/-! ## Activation and configuration -/

/-- What one activation did: its return value, the `filter_frame` calls it made
and the number of `ff_inlink_request_frame` calls. -/
structure ActivateResult where
  ret : Int
  filtered : List FilterResult
  requests : Nat

/-- The function `legofy_activate`; `ret` and `frame` are what
`ff_inlink_consume_frame` returned and delivered. -/
def legofy_activate (sink : AVFrame → Int) (legofy : LegofyContext) (ret : Int)
    (frame : AVFrame) : ActivateResult :=
  if ret > 0 then
    let r := filter_frame sink legofy frame
    ⟨r.ret, [r], 0⟩
  else if ret = AVERROR EAGAIN ∨ ret = AVERROR_EOF then
    ⟨ret, [], 0⟩
  else
    ⟨0, [], 1⟩

/-- The outcome of the decoder calls for one packet that `av_read_frame`
delivered: the results of `avcodec_send_packet` and `avcodec_receive_frame`,
and what `av_frame_clone` returns for the received frame. -/
structure PacketOutcome where
  send : Int
  receive : Int
  clone : Option AVFrame

/-- The outcomes of the external calls made by `load_brick_texture`. The
packets are those for which `av_read_frame` returned a non-negative value;
after the last of them it returns a negative one. -/
structure DecoderOutcome where
  frame_alloc : Bool
  open_input : Int
  find_stream_info : Int
  find_decoder : Bool
  alloc_context : Bool
  open2 : Int
  packets : List PacketOutcome

/-- The `while (av_read_frame(...) >= 0)` loop, lines 80-98: returns the final
`ret` and `brick_texture`. -/
def readLoop : List PacketOutcome → Int → Option AVFrame → Int × Option AVFrame
  | [], ret, tex => (ret, tex)
  | p :: rest, _, tex =>
    let ret := p.send
    if ret < 0 then (ret, tex)
    else
      let ret := p.receive
      if ret = AVERROR EAGAIN ∨ ret = AVERROR_EOF then readLoop rest ret tex
      else if ret < 0 then (ret, tex)
      else (ret, p.clone)

/-- The function `load_brick_texture`: its return value and the context
afterwards. -/
def load_brick_texture (d : DecoderOutcome) (legofy : LegofyContext) : Int × LegofyContext :=
  if ¬ d.frame_alloc then (AVERROR ENOMEM, legofy)
  else if d.open_input < 0 then (d.open_input, legofy)
  else if d.find_stream_info < 0 then (d.find_stream_info, legofy)
  else if ¬ d.find_decoder then (AVERROR_DECODER_NOT_FOUND, legofy)
  else if ¬ d.alloc_context then (AVERROR ENOMEM, legofy)
  else if d.open2 < 0 then (d.open2, legofy)
  else
    let r := readLoop d.packets d.open2 legofy.brick_texture
    (r.1, ⟨legofy.brick_size, legofy.brick_path, r.2⟩)

/-- What `config_input` did: its return value, the context afterwards and the
number of `ff_inlink_request_frame` calls. -/
structure ConfigResult where
  ret : Int
  legofy : LegofyContext
  requests : Nat

/-- The function `config_input`. -/
def config_input (d : DecoderOutcome) (legofy : LegofyContext) : ConfigResult :=
  let r := load_brick_texture d legofy
  if r.1 < 0 then ⟨r.1, r.2, 0⟩
  else ⟨0, r.2, 1⟩


/-! ## Specification-side quantities -/

/-- The plane `s` is `s0` with exactly the offsets in `C` stored to, once
each, the byte at `o` then being `v o`. -/
def Painted (s0 s : Plane) (C : Nat → Prop) (v : Nat → Byte) : Prop :=
  ∀ o, (C o → s.bytes o = v o ∧ s.log.count o = s0.log.count o + 1) ∧
    (¬ C o → s.bytes o = s0.bytes o ∧ s.log.count o = s0.log.count o)

/-- The range of the `brick_size` option in `legofy_options`: 2 to 128. -/
def ValidBrickSize (n : Nat) : Prop := 2 ≤ n ∧ n ≤ 128

/-- A downstream link that accepts every frame. -/
def sinkOk : AVFrame → Int := fun _ => 0

/-- A frame whose plane 0 holds `d` and whose other planes are zero. -/
def grayFrame (width height linesize : Nat) (d : Nat → Byte) : AVFrame :=
  ⟨width, height, 0, fun _ => linesize, fun p => if p = 0 then d else fun _ => 0,
    fun _ _ => 0⟩

/-- A context in which no texture has been loaded. -/
def contextEmpty : LegofyContext := ⟨16, "brick.png", none⟩

/-- A file that opens and has a decoder, but yields no packet. -/
def emptyFile : DecoderOutcome := ⟨true, 0, 0, true, true, 0, []⟩

/-- A file whose only packet decodes, after which `av_frame_clone` fails. -/
def cloneFails : DecoderOutcome := ⟨true, 0, 0, true, true, 0, [⟨0, 0, none⟩]⟩

/-! ## Loop rules -/

/-- Fuel beyond the number of iterations is never used: once `N ≤ i + fuel`, the
loop stops because its condition fails, and any extra fuel gives the same
result. -/
theorem forLoop_fuel {σ : Type} (cond : Nat → Bool) (next : Nat → Nat) (body : Nat → σ → σ)
    (N d : Nat) (hd : 0 < d) (hcond : ∀ i, cond i = true ↔ i < N)
    (hnext : ∀ i, next i = i + d) :
    ∀ fuel extra i s, N ≤ i + fuel →
      forLoop cond next body (fuel + extra) i s = forLoop cond next body fuel i s := by
  intro fuel
  induction fuel with
  | zero =>
    intro extra i s hf
    have hc : ¬ cond i = true := fun h => by have := (hcond i).1 h; omega
    cases extra with
    | zero => rfl
    | succ e => simp [forLoop, hc]
  | succ fuel ih =>
    intro extra i s hf
    rw [Nat.add_right_comm]
    by_cases hc : cond i = true
    · have := (hcond i).1 hc
      simp only [forLoop, hc, if_true, hnext]
      exact ih extra (i + d) (body i s) (by omega)
    · simp [forLoop, hc]

theorem Painted.store {s : Plane} (t : Nat) (b : Byte) :
    Painted s (s.store t b) (fun o => o = t) (fun _ => b) := by
  intro o
  constructor
  · rintro rfl
    simp [Plane.store]
  · intro hne
    have hne' : ¬ t = o := fun h => hne h.symm
    simp [Plane.store, hne, List.count_cons, hne']

theorem excessBits_le : ∀ (fuel n k : Nat), n < 2 ^ (53 + k) → excessBits fuel n ≤ k := by
  intro fuel
  induction fuel with
  | zero => intro n k _; simp [excessBits]
  | succ fuel ih =>
    intro n k h
    unfold excessBits
    split
    · exact Nat.zero_le _
    · rename_i hn
      cases k with
      | zero => exact absurd h hn
      | succ k =>
        have h2 : n / 2 < 2 ^ (53 + k) := by
          rw [Nat.div_lt_iff_lt_mul (by decide)]
          have : 2 ^ (53 + (k + 1)) = 2 ^ (53 + k) * 2 := by
            rw [← Nat.add_assoc, Nat.pow_succ]
          omega
        exact Nat.succ_le_succ (ih (n / 2) k h2)

/-- A value that fits the 53-bit significand is not changed by the rounding. -/
theorem roundNE53_exact (n : Nat) (h : n < 2 ^ 53) : roundNE53 n = n := by
  have hsh : excessBits 64 n = 0 := Nat.le_zero.1 (excessBits_le 64 n 0 h)
  unfold roundNE53
  simp [hsh, Nat.mod_one]

/-- The truncated double can be one below the exact quotient: `6 * 0.6 + 1 * 0.4`
evaluates to `3.9999999999999996`, stored as 3, while `(3 * 6 + 2 * 1) / 5 = 4`;
and `100 * 0.6 + 200 * 0.4` evaluates to exactly `140.0`. -/
theorem blend_examples :
    (blend 6 1).val = 3 ∧ (3 * 6 + 2 * 1) / 5 = 4 ∧ (blend 100 200).val = 140 ∧
      blendDouble 100 200 = 140 * 2 ^ 54 := by
  decide

theorem wrap32_natCast (n : Nat) (h : n < 2 ^ 31) : wrap32 (n : Int) = (n : Int) := by
  unfold wrap32
  norm_num at h
  omega

theorem scaled_lt (brick_size dim k : Nat) (hk : k < brick_size) (hd : 1 ≤ dim) :
    (k * dim) / brick_size < dim := by
  rw [Nat.div_lt_iff_lt_mul (by omega)]
  rw [Nat.mul_comm dim]
  exact Nat.mul_lt_mul_of_pos_right hk hd

theorem offset_mul_lt (brick_size dim k : Nat) (hk : k < brick_size)
    (h : (brick_size - 1) * dim < 2 ^ 31) : k * dim < 2 ^ 31 :=
  lt_of_le_of_lt (Nat.mul_le_mul_right dim (by omega)) h

theorem texScale_exact (brick_size dim k : Nat) (h : k * dim < 2 ^ 31) :
    texScale brick_size dim k = ((k * dim / brick_size : Nat) : Int) := by
  unfold texScale
  rw [← Int.natCast_mul, wrap32_natCast _ h, ← Int.ofNat_tdiv]

theorem texCoord_exact (brick_size dim k : Nat) (h : k * dim < 2 ^ 31) :
    texCoord brick_size dim k = ((k * dim / brick_size % dim : Nat) : Int) := by
  unfold texCoord
  rw [texScale_exact _ _ _ h, ← Int.ofNat_tmod]

/-- C3, as amended: for every brick size in [2,128], every texture width and
height of at least 1 with `(brick_size - 1) * width < 2 ^ 31` and
`(brick_size - 1) * height < 2 ^ 31` (so that the 32-bit products `i * width`
and `j * height` do not overflow) and every cell-local offset `(i, j)` below
the brick size, the texture coordinates `bx` and `by` computed by `filter_frame`
satisfy `0 ≤ bx < texture.width` and `0 ≤ by < texture.height`, and they are
the exact values `((i * width) / brick_size) mod width` and
`((j * height) / brick_size) mod height`. -/
theorem texCoord_in_bounds (brick_size tw th i j : Nat) :
    ValidBrickSize brick_size → 1 ≤ tw → 1 ≤ th → i < brick_size → j < brick_size →
    (brick_size - 1) * tw < 2 ^ 31 → (brick_size - 1) * th < 2 ^ 31 →
      (0 ≤ texCoord brick_size tw i ∧ texCoord brick_size tw i < (tw : Int)) ∧
      (0 ≤ texCoord brick_size th j ∧ texCoord brick_size th j < (th : Int)) ∧
      texCoord brick_size tw i = ((((i * tw) / brick_size) % tw : Nat) : Int) ∧
      texCoord brick_size th j = ((((j * th) / brick_size) % th : Nat) : Int) := by
  intro _ htw hth hi hj hw hh
  have hx := texCoord_exact brick_size tw i (offset_mul_lt _ _ _ hi hw)
  have hy := texCoord_exact brick_size th j (offset_mul_lt _ _ _ hj hh)
  have hxl : (i * tw) / brick_size % tw < tw := Nat.mod_lt _ htw
  have hyl : (j * th) / brick_size % th < th := Nat.mod_lt _ hth
  refine ⟨⟨?_, ?_⟩, ⟨?_, ?_⟩, hx, hy⟩
  · rw [hx]; exact Int.ofNat_nonneg _
  · rw [hx]; exact Int.ofNat_lt.2 hxl
  · rw [hy]; exact Int.ofNat_nonneg _
  · rw [hy]; exact Int.ofNat_lt.2 hyl

/-- C3, witness: brick size 128 and a texture 3 wide and 16909320 high (the
largest dimension without overflow at this brick size), at the offset
`(127, 127)`. -/
theorem texCoord_in_bounds_witness :
    (0 ≤ texCoord 128 3 127 ∧ texCoord 128 3 127 < ((3 : Nat) : Int)) ∧
      (0 ≤ texCoord 128 16909320 127 ∧ texCoord 128 16909320 127 < ((16909320 : Nat) : Int)) ∧
      texCoord 128 3 127 = ((((127 * 3) / 128) % 3 : Nat) : Int) ∧
      texCoord 128 16909320 127 = ((((127 * 16909320) / 128) % 16909320 : Nat) : Int) :=
  texCoord_in_bounds 128 3 16909320 127 127 ⟨by decide, by decide⟩ (by decide) (by decide)
    (by decide) (by decide) (by decide) (by decide)

/-- C3, counterexample to the claim as stated: with brick size 128, a texture
dimension of 20000000 and the cell-local offset 108 the 32-bit product
`108 * 20000000` overflows and the coordinate computed by lines 151-155 is
`-16679432`, which is negative, while the exact formula gives 16875000. -/
theorem texCoord_overflow_counterexample :
    ValidBrickSize 128 ∧ 1 ≤ 20000000 ∧ 108 < 128 ∧
      texCoord 128 20000000 108 = -16679432 ∧ ¬ (0 ≤ texCoord 128 20000000 108) ∧
      ((108 * 20000000) / 128) % 20000000 = 16875000 :=
  ⟨⟨by decide, by decide⟩, by decide, by decide, by decide, by decide, by decide⟩

/-- C10: for every brick size and texture dimension of at least 1 and every
cell-local offset `i` below the brick size whose product `i * dim` does not
overflow a 32-bit `int`, the scaled coordinate `(i * dim) / brick_size` computed
by the code is the exact quotient and is already below `dim`, so the wrap
`% dim` leaves it unchanged; it is 0 at offset 0 and non-decreasing in the
offset. Within a cell the texture is therefore stretched once and never
repeated. -/
theorem texCoord_no_wrap (brick_size dim i : Nat) :
    1 ≤ brick_size → 1 ≤ dim → i < brick_size → i * dim < 2 ^ 31 →
    (i * dim) / brick_size < dim ∧
      texScale brick_size dim i = (((i * dim) / brick_size : Nat) : Int) ∧
      (0 ≤ texScale brick_size dim i ∧ texScale brick_size dim i < (dim : Int)) ∧
      texCoord brick_size dim i = texScale brick_size dim i ∧
      texScale brick_size dim 0 = 0 ∧
      ∀ k, i ≤ k → k * dim < 2 ^ 31 →
        texScale brick_size dim i ≤ texScale brick_size dim k := by
  intro _ hd hi hov
  have hlt := scaled_lt brick_size dim i hi hd
  have hs := texScale_exact brick_size dim i hov
  refine ⟨hlt, hs, ⟨?_, ?_⟩, ?_, ?_, ?_⟩
  · rw [hs]; exact Int.ofNat_nonneg _
  · rw [hs]; exact Int.ofNat_lt.2 hlt
  · rw [texCoord_exact brick_size dim i hov, hs, Nat.mod_eq_of_lt hlt]
  · rw [texScale_exact brick_size dim 0 (by simp)]
    simp
  · intro k hk hkov
    rw [hs, texScale_exact brick_size dim k hkov]
    exact Int.ofNat_le.2 (Nat.div_le_div_right (Nat.mul_le_mul_right _ hk))

/-- C10, witness: a brick of size 4 on a texture dimension 2 wide, at offset 3,
has the coordinate 1 with or without the wrap. -/
theorem texCoord_no_wrap_witness :
    (3 * 2) / 4 < 2 ∧ texScale 4 2 3 = (((3 * 2) / 4 : Nat) : Int) ∧
      (0 ≤ texScale 4 2 3 ∧ texScale 4 2 3 < ((2 : Nat) : Int)) ∧
      texCoord 4 2 3 = texScale 4 2 3 ∧ texScale 4 2 0 = 0 ∧
      ∀ k, 3 ≤ k → k * 2 < 2 ^ 31 → texScale 4 2 3 ≤ texScale 4 2 k :=
  texCoord_no_wrap 4 2 3 (by decide) (by decide) (by decide) (by decide)

/-! ## C4: a uniform frame and a uniform texture -/

/-- C6: when no texture is loaded, `filter_frame` returns `AVERROR(EINVAL)`, a
negative value, leaves the frame and the context as they were, stores to no
byte and does not call `ff_filter_frame`. -/
theorem filter_frame_no_texture (sink : AVFrame → Int) (legofy : LegofyContext)
    (frame : AVFrame) (h : legofy.brick_texture = none) :
    (filter_frame sink legofy frame).ret = AVERROR EINVAL ∧
      (filter_frame sink legofy frame).ret < 0 ∧
      (filter_frame sink legofy frame).frame = frame ∧
      (filter_frame sink legofy frame).legofy = legofy ∧
      (filter_frame sink legofy frame).writes = [] ∧
      (filter_frame sink legofy frame).forwarded = none := by
  simp only [filter_frame, h]
  exact ⟨trivial, by decide, trivial, trivial, trivial, trivial⟩

/-- C6, witness: the context without a texture and a 2x2 frame. -/
theorem filter_frame_no_texture_witness :
    (filter_frame sinkOk contextEmpty (grayFrame 2 2 2 (fun _ => 1))).ret = AVERROR EINVAL ∧
      (filter_frame sinkOk contextEmpty (grayFrame 2 2 2 (fun _ => 1))).ret < 0 ∧
      (filter_frame sinkOk contextEmpty (grayFrame 2 2 2 (fun _ => 1))).frame =
        grayFrame 2 2 2 (fun _ => 1) ∧
      (filter_frame sinkOk contextEmpty (grayFrame 2 2 2 (fun _ => 1))).legofy = contextEmpty ∧
      (filter_frame sinkOk contextEmpty (grayFrame 2 2 2 (fun _ => 1))).writes = [] ∧
      (filter_frame sinkOk contextEmpty (grayFrame 2 2 2 (fun _ => 1))).forwarded = none :=
  filter_frame_no_texture sinkOk contextEmpty (grayFrame 2 2 2 (fun _ => 1)) rfl

/-! ## C7: loading the texture -/

/-- C7, the code at the failing inputs: for a file that opens and has a
decoder but yields no packet, and for a file whose decoded frame cannot be
cloned, `load_brick_texture` returns 0 and leaves `brick_texture` null;
`config_input` then returns 0 and requests the first frame although no texture
is loaded. -/
theorem load_brick_texture_no_frame :
    (load_brick_texture emptyFile contextEmpty).1 = 0 ∧
      (load_brick_texture emptyFile contextEmpty).2.brick_texture = none ∧
      (config_input emptyFile contextEmpty).ret = 0 ∧
      (config_input emptyFile contextEmpty).requests = 1 ∧
      (config_input emptyFile contextEmpty).legofy.brick_texture = none ∧
      (load_brick_texture cloneFails contextEmpty).1 = 0 ∧
      (load_brick_texture cloneFails contextEmpty).2.brick_texture = none ∧
      (config_input cloneFails contextEmpty).ret = 0 ∧
      (config_input cloneFails contextEmpty).requests = 1 :=
  ⟨rfl, rfl, rfl, rfl, rfl, rfl, rfl, rfl, rfl⟩

/-! ## C8: one activation -/

/-- C8: for every result `r` of consuming the input link, `legofy_activate`
(1) when `r > 0` runs `filter_frame` on exactly the delivered frame, returns
its result and requests nothing; (2) when `r` is `AVERROR(EAGAIN)` or
`AVERROR_EOF` returns `r`, filters nothing and requests nothing; (3) when
`r = 0` requests exactly one frame, filters nothing and returns 0; and it never
filters more than one frame. -/
theorem legofy_activate_cases (sink : AVFrame → Int) (legofy : LegofyContext) (r : Int)
    (frame : AVFrame) :
    (0 < r →
        (legofy_activate sink legofy r frame).ret = (filter_frame sink legofy frame).ret ∧
        (legofy_activate sink legofy r frame).filtered = [filter_frame sink legofy frame] ∧
        (legofy_activate sink legofy r frame).requests = 0) ∧
      (r = AVERROR EAGAIN ∨ r = AVERROR_EOF →
        (legofy_activate sink legofy r frame).ret = r ∧
        (legofy_activate sink legofy r frame).filtered = [] ∧
        (legofy_activate sink legofy r frame).requests = 0) ∧
      (r = 0 →
        (legofy_activate sink legofy r frame).ret = 0 ∧
        (legofy_activate sink legofy r frame).filtered = [] ∧
        (legofy_activate sink legofy r frame).requests = 1) ∧
      (legofy_activate sink legofy r frame).filtered.length ≤ 1 := by
  refine ⟨?_, ?_, ?_, ?_⟩
  · intro hr
    simp only [legofy_activate, gt_iff_lt, hr, if_true, and_self]
  · intro hr
    have hneg : ¬ 0 < r := by
      rcases hr with h | h <;> rw [h] <;> decide
    simp only [legofy_activate, gt_iff_lt, hneg, if_false, hr, if_true, and_self]
  · intro hr
    subst hr
    have h1 : ¬ ((0 : Int) = AVERROR EAGAIN ∨ (0 : Int) = AVERROR_EOF) := by decide
    simp only [legofy_activate, gt_iff_lt, lt_irrefl, if_false, h1, and_self]
  · unfold legofy_activate
    split
    · exact Nat.le_refl _
    · split <;> exact Nat.zero_le _

/-- C8, witness: the four cases at `r = 1`, `r = AVERROR(EAGAIN)`,
`r = AVERROR_EOF` and `r = 0`. -/
theorem legofy_activate_cases_witness :
    ((legofy_activate sinkOk contextEmpty 1 (grayFrame 2 2 2 (fun _ => 1))).filtered =
        [filter_frame sinkOk contextEmpty (grayFrame 2 2 2 (fun _ => 1))] ∧
      (legofy_activate sinkOk contextEmpty 1 (grayFrame 2 2 2 (fun _ => 1))).requests = 0) ∧
    ((legofy_activate sinkOk contextEmpty (AVERROR EAGAIN)
        (grayFrame 2 2 2 (fun _ => 1))).ret = AVERROR EAGAIN) ∧
    ((legofy_activate sinkOk contextEmpty AVERROR_EOF
        (grayFrame 2 2 2 (fun _ => 1))).ret = AVERROR_EOF) ∧
    ((legofy_activate sinkOk contextEmpty 0 (grayFrame 2 2 2 (fun _ => 1))).requests = 1) :=
  ⟨((legofy_activate_cases sinkOk contextEmpty 1 (grayFrame 2 2 2 (fun _ => 1))).1
      (by decide)).2,
    ((legofy_activate_cases sinkOk contextEmpty (AVERROR EAGAIN)
      (grayFrame 2 2 2 (fun _ => 1))).2.1 (Or.inl rfl)).1,
    ((legofy_activate_cases sinkOk contextEmpty AVERROR_EOF
      (grayFrame 2 2 2 (fun _ => 1))).2.1 (Or.inr rfl)).1,
    ((legofy_activate_cases sinkOk contextEmpty 0
      (grayFrame 2 2 2 (fun _ => 1))).2.2.1 rfl).2.2⟩

end Legofy
